import Mathlib

/-!
Verification of the ghostlink ephemeral session and signaling engine.

The definitions below are a shallow embedding of the backend services:
ChatService (burner text rooms and ephemeral messages), MeetingService
(scheduled multi-party meetings), WebRTCService (two-party video signaling
rooms), AuthService (disposable identities and temporary tokens) and the
adaptive rate limiter. JavaScript Maps are modelled as association lists
keyed by String, JavaScript Sets as duplicate-free lists in insertion
order, and Date.now() instants as Nat milliseconds. Randomly generated
ids and passcodes are taken as parameters.
-/

/-- Lookup in an association list, the model of JavaScript Map.get. -/
def listGet {α : Type} (m : List (String × α)) (k : String) : Option α :=
  match m with
  | [] => none
  | (k1, v) :: rest => if k1 == k then some v else listGet rest k

/-- Insert or replace in an association list, the model of JavaScript
Map.set: an existing key keeps its position, a new key is appended. -/
def listSet {α : Type} (m : List (String × α)) (k : String) (v : α) : List (String × α) :=
  match m with
  | [] => [(k, v)]
  | (k1, v1) :: rest => if k1 == k then (k, v) :: rest else (k1, v1) :: listSet rest k v

/-- Removal from an association list, the model of JavaScript Map.delete. -/
def listDelete {α : Type} (m : List (String × α)) (k : String) : List (String × α) :=
  m.filter (fun p => p.1 != k)

/-- The model of JavaScript Set.add: append the element when absent. -/
def addElem (l : List String) (x : String) : List String :=
  if x ∈ l then l else l ++ [x]

theorem listGet_listSet_eq {α : Type} (m : List (String × α)) (k : String) (v : α) :
    listGet (listSet m k v) k = some v := by
  induction m with
  | nil => simp [listSet, listGet]
  | cons hd tl ih =>
    obtain ⟨k1, v1⟩ := hd
    by_cases h : k1 = k
    · simp [listSet, listGet, h]
    · have hb : (k1 == k) = false := by simp [h]
      simp [listSet, listGet, hb, ih]

theorem listGet_listSet_self {α : Type} {m : List (String × α)} {k : String} {v : α}
    (h : listGet m k = some v) : listSet m k v = m := by
  induction m with
  | nil => simp [listGet] at h
  | cons hd tl ih =>
    obtain ⟨k1, v1⟩ := hd
    by_cases hk : k1 = k
    · have hb : (k1 == k) = true := by simp [hk]
      simp [listGet, hb] at h
      simp [listSet, hb, hk, h]
    · have hb : (k1 == k) = false := by simp [hk]
      simp [listGet, hb] at h
      simp [listSet, hb, ih h]

theorem listGet_mem {α : Type} {m : List (String × α)} {k : String} {v : α}
    (h : listGet m k = some v) : (k, v) ∈ m := by
  induction m with
  | nil => simp [listGet] at h
  | cons hd tl ih =>
    obtain ⟨k1, v1⟩ := hd
    by_cases hk : k1 = k
    · have hb : (k1 == k) = true := by simp [hk]
      simp [listGet, hb] at h
      simp [hk, h]
    · have hb : (k1 == k) = false := by simp [hk]
      simp [listGet, hb] at h
      simp [ih h]

theorem mem_listSet {α : Type} {m : List (String × α)} {k : String} {v : α} {p : String × α}
    (h : p ∈ listSet m k v) : p = (k, v) ∨ p ∈ m := by
  induction m with
  | nil => simp [listSet] at h; simp [h]
  | cons hd tl ih =>
    obtain ⟨k1, v1⟩ := hd
    by_cases hk : k1 = k
    · have hb : (k1 == k) = true := by simp [hk]
      simp [listSet, hb] at h
      rcases h with h | h
      · exact Or.inl h
      · exact Or.inr (List.mem_cons_of_mem _ h)
    · have hb : (k1 == k) = false := by simp [hk]
      simp [listSet, hb] at h
      rcases h with h | h
      · exact Or.inr (by simp [h])
      · rcases ih h with h1 | h1
        · exact Or.inl h1
        · exact Or.inr (List.mem_cons_of_mem _ h1)

theorem listGet_listDelete {α : Type} (m : List (String × α)) (k : String) :
    listGet (listDelete m k) k = none := by
  induction m with
  | nil => simp [listDelete, listGet]
  | cons hd tl ih =>
    obtain ⟨k1, v1⟩ := hd
    by_cases hk : k1 = k
    · have hb : (k1 != k) = false := by simp [hk]
      simpa [listDelete, List.filter, hb] using ih
    · have hb : (k1 != k) = true := by simp [hk]
      have hb2 : (k1 == k) = false := by simp [hk]
      simpa [listDelete, List.filter, hb, listGet, hb2] using ih

theorem mem_listDelete {α : Type} {m : List (String × α)} {k : String} {p : String × α}
    (h : p ∈ listDelete m k) : p ∈ m :=
  List.mem_of_mem_filter h

theorem length_addElem_le (l : List String) (x : String) :
    (addElem l x).length ≤ l.length + 1 := by
  unfold addElem
  split
  · exact Nat.le_succ _
  · simp

theorem addElem_of_mem {l : List String} {x : String} (h : x ∈ l) : addElem l x = l := by
  simp [addElem, h]

/-!
ChatService (ghostlink-backend/src/services/chatService.js).

The source keeps one Map `this.rooms` whose values are burner-room objects
for keys created by createBurnerRoom and message-id arrays for keys touched
by storeMessage; the sum type RoomEntry mirrors that. Messages live in
`this.messages`.
-/

/-- An ephemeral message as built by ChatService.processMessage. -/
structure ChatMessage where
  id : String
  anonId : String
  text : String
  room : String
  timestamp : Nat
  expires : Nat
deriving DecidableEq, Repr

/-- A burner text room as built by ChatService.createBurnerRoom. -/
structure BurnerRoom where
  id : String
  passcode : String
  creator : String
  created : Nat
  expires : Nat
  participants : List String
  maxParticipants : Nat
deriving DecidableEq, Repr

/-- A value of the `this.rooms` Map of ChatService: a burner-room object or
a message-id array. -/
inductive RoomEntry where
  | burner (r : BurnerRoom)
  | msgs (ids : List String)
deriving DecidableEq, Repr

/-- The mutable state of ChatService. -/
structure ChatState where
  messages : List (String × ChatMessage)
  rooms : List (String × RoomEntry)
deriving DecidableEq, Repr

/-- The summary object returned by ChatService.getRoomInfo. -/
structure RoomInfo where
  id : String
  participantCount : Nat
  maxParticipants : Nat
  created : Nat
  expires : Nat
  timeRemaining : Nat
deriving DecidableEq, Repr

/-- Outcome of ChatService.joinBurnerRoom: the thrown error message, or the
success object with the participant count. -/
inductive JoinChatResult where
  | err (msg : String)
  | ok (roomId : String) (participantCount : Nat)
deriving DecidableEq, Repr

/-- ChatService.createBurnerRoom. The random room id and passcode are
parameters; the result carries them back as the route response does. -/
def createBurnerRoom (st : ChatState) (creatorAnonId roomId passcode : String) (now : Nat) :
    (String × String) × ChatState :=
  let room : BurnerRoom := {
    id := roomId
    passcode := passcode
    creator := creatorAnonId
    created := now
    expires := now + 24 * 60 * 60 * 1000
    participants := [creatorAnonId]
    maxParticipants := 10 }
  ((roomId, passcode), { st with rooms := listSet st.rooms roomId (RoomEntry.burner room) })

/-- ChatService.joinBurnerRoom. On an expired room the source deletes it
from the Map and then throws. A message-id array under the requested key
has no expires field, so in the source its expiry test is false and its
passcode test fails, throwing Invalid passcode with the state unchanged. -/
def joinBurnerRoom (st : ChatState) (roomId passcode anonId : String) (now : Nat) :
    JoinChatResult × ChatState :=
  match listGet st.rooms roomId with
  | none => (.err "Room not found", st)
  | some (.msgs _) => (.err "Invalid passcode", st)
  | some (.burner room) =>
    if room.expires ≤ now then
      (.err "Room expired", { st with rooms := listDelete st.rooms roomId })
    else if room.passcode != passcode then
      (.err "Invalid passcode", st)
    else if room.participants.length ≥ room.maxParticipants then
      (.err "Room is full", st)
    else
      let ps := addElem room.participants anonId
      (.ok roomId ps.length,
       { st with rooms := listSet st.rooms roomId (RoomEntry.burner { room with participants := ps }) })

/-- ChatService.leaveBurnerRoom. The source guards on `room && room.participants`,
so a missing key or a message-id array is a no-op; an emptied room is deleted. -/
def leaveBurnerRoom (st : ChatState) (roomId anonId : String) : ChatState :=
  match listGet st.rooms roomId with
  | some (.burner room) =>
    let ps := room.participants.erase anonId
    if ps.length = 0 then { st with rooms := listDelete st.rooms roomId }
    else { st with rooms := listSet st.rooms roomId (RoomEntry.burner { room with participants := ps }) }
  | _ => st

/-- ChatService.getRoomInfo. The source performs no expiry check here: it
reports whatever the Map holds, with timeRemaining clamped at zero. For a
message-id array the source builds an object of undefined fields; that
branch is modelled with zero defaults and is unused by the theorems. -/
def getRoomInfo (st : ChatState) (roomId : String) (now : Nat) : Option RoomInfo :=
  match listGet st.rooms roomId with
  | none => none
  | some (.burner room) =>
    some { id := room.id
           participantCount := room.participants.length
           maxParticipants := room.maxParticipants
           created := room.created
           expires := room.expires
           timeRemaining := room.expires - now }
  | some (.msgs _) => some { id := "", participantCount := 0, maxParticipants := 0,
                             created := 0, expires := 0, timeRemaining := 0 }

/-- ChatService.getRecentMessages: the last `limit` ids of the room entry
(slice with a negative index, so limit 0 keeps everything), resolved
through the messages Map and filtered to unexpired ones. The source maps
ids to lookups and filters on `msg && msg.expires > Date.now()`, which is
the filterMap plus filter below. A burner-room object under the key would
raise a TypeError in the source; the theorems never hit that branch. -/
def getRecentMessages (st : ChatState) (room : String) (limit : Nat) (now : Nat) :
    List ChatMessage :=
  let ids := match listGet st.rooms room with
    | some (.msgs ids) => ids
    | _ => []
  let recent := if limit = 0 then ids else ids.drop (ids.length - limit)
  (recent.filterMap (fun id => listGet st.messages id)).filter (fun m => now < m.expires)

/-!
MeetingService (src/unnamed/part_005, first document).

JavaScript or-defaults: `x || d` replaces undefined, 0 and the empty
string; `x !== false` is true unless the field is literally false. The
helpers below model those on Option-typed inputs.
-/

/-- JavaScript `x || d` for a possibly-undefined number field. -/
def jsOrNat (x : Option Nat) (d : Nat) : Nat :=
  match x with
  | some n => if n = 0 then d else n
  | none => d

/-- JavaScript `x || d` for a possibly-undefined string field. -/
def jsOrStr (x : Option String) (d : String) : String :=
  match x with
  | some s => if s = "" then d else s
  | none => d

/-- The settings block of a meeting. -/
structure MeetingSettings where
  allowScreenShare : Bool
  allowChat : Bool
  allowRecording : Bool
  requirePasscode : Bool
  autoDelete : Bool
deriving DecidableEq, Repr

/-- The metadata block of a meeting. -/
structure MeetingMetadata where
  participantCount : Nat
  startedAt : Option Nat
  endedAt : Option Nat
  totalDuration : Int
deriving DecidableEq, Repr

/-- A meeting as built by MeetingService.createMeeting. -/
structure Meeting where
  id : String
  title : String
  createdBy : String
  createdAt : Nat
  scheduledFor : Nat
  duration : Nat
  passcode : String
  maxParticipants : Nat
  isActive : Bool
  participants : List String
  settings : MeetingSettings
  metadata : MeetingMetadata
deriving DecidableEq, Repr

/-- An entry of the `this.participants` Map of MeetingService. -/
structure MeetingParticipant where
  anonId : String
  meetingId : String
  joinedAt : Nat
  role : String
deriving DecidableEq, Repr

/-- The mutable state of MeetingService. activeSessions is unused by the
source operations modelled here. -/
structure MeetingState where
  meetings : List (String × Meeting)
  participants : List (String × MeetingParticipant)
deriving DecidableEq, Repr

/-- The meetingData argument of createMeeting; absent fields are none. -/
structure MeetingData where
  title : Option String
  scheduledFor : Option Nat
  duration : Option Nat
  maxParticipants : Option Nat
  allowScreenShare : Option Bool
  allowChat : Option Bool
  requirePasscode : Option Bool
  autoDelete : Option Bool
deriving DecidableEq, Repr

/-- The meeting view returned to clients by MeetingService.sanitizeMeeting:
everything except passcode and createdBy. -/
structure SanitizedMeeting where
  id : String
  title : String
  createdAt : Nat
  scheduledFor : Nat
  duration : Nat
  maxParticipants : Nat
  isActive : Bool
  settings : MeetingSettings
  metadata : MeetingMetadata
deriving DecidableEq, Repr

/-- MeetingService.sanitizeMeeting. -/
def sanitizeMeeting (m : Meeting) : SanitizedMeeting :=
  { id := m.id, title := m.title, createdAt := m.createdAt, scheduledFor := m.scheduledFor,
    duration := m.duration, maxParticipants := m.maxParticipants, isActive := m.isActive,
    settings := m.settings, metadata := m.metadata }

/-- The meeting record built by MeetingService.createMeeting, with the random
id and passcode as parameters. -/
def createdMeeting (anonId meetingId passcode : String) (d : MeetingData) (now : Nat) : Meeting :=
  { id := meetingId
    title := jsOrStr d.title "Anonymous Meeting"
    createdBy := anonId
    createdAt := now
    scheduledFor := jsOrNat d.scheduledFor now
    duration := jsOrNat d.duration 3600000
    passcode := passcode
    maxParticipants := jsOrNat d.maxParticipants 10
    isActive := false
    participants := []
    settings := {
      allowScreenShare := d.allowScreenShare.getD true
      allowChat := d.allowChat.getD true
      allowRecording := false
      requirePasscode := d.requirePasscode.getD true
      autoDelete := d.autoDelete.getD true }
    metadata := { participantCount := 0, startedAt := none, endedAt := none, totalDuration := 0 } }

/-- The success object of MeetingService.createMeeting. -/
structure CreateMeetingResult where
  meetingId : String
  passcode : String
  meeting : SanitizedMeeting
deriving DecidableEq, Repr

/-- MeetingService.createMeeting. -/
def createMeeting (st : MeetingState) (anonId meetingId passcode : String) (d : MeetingData)
    (now : Nat) : CreateMeetingResult × MeetingState :=
  let meeting := createdMeeting anonId meetingId passcode d now
  ({ meetingId := meetingId, passcode := passcode, meeting := sanitizeMeeting meeting },
   { st with meetings := listSet st.meetings meetingId meeting })

/-- MeetingService.isMeetingExpired: one hour of grace past the scheduled
end. -/
def isMeetingExpired (m : Meeting) (now : Nat) : Bool :=
  decide (m.scheduledFor + m.duration + 3600000 < now)

/-- One element of the participant list served with a meeting. -/
structure ParticipantView where
  anonId : String
  role : String
  joinedAt : Nat
deriving DecidableEq, Repr

/-- MeetingService.getMeetingParticipants: resolves each socket of the
meeting through the participants Map, skipping unknown sockets. -/
def getMeetingParticipants (st : MeetingState) (meetingId : String) : List ParticipantView :=
  match listGet st.meetings meetingId with
  | none => []
  | some m =>
    m.participants.filterMap (fun sid =>
      (listGet st.participants sid).map (fun p =>
        { anonId := p.anonId, role := p.role, joinedAt := p.joinedAt }))

/-- Outcome of MeetingService.joinMeeting. -/
inductive JoinMeetingResult where
  | err (msg : String)
  | ok (meetingId : String) (meeting : SanitizedMeeting) (participantRole : String)
       (participants : List ParticipantView)
deriving DecidableEq, Repr

/-- MeetingService.joinMeeting: existence, expiry (delete on access),
passcode, capacity, then admission; first admission activates the meeting. -/
def joinMeeting (st : MeetingState) (socketId anonId meetingId passcode : String) (now : Nat) :
    JoinMeetingResult × MeetingState :=
  match listGet st.meetings meetingId with
  | none => (.err "Meeting not found", st)
  | some m =>
    if isMeetingExpired m now then
      (.err "Meeting has expired", { st with meetings := listDelete st.meetings meetingId })
    else if m.settings.requirePasscode && m.passcode != passcode then
      (.err "Invalid passcode", st)
    else if m.participants.length ≥ m.maxParticipants then
      (.err "Meeting is full", st)
    else
      let ps := addElem m.participants socketId
      let role := if m.createdBy == anonId then "host" else "participant"
      let part : MeetingParticipant :=
        { anonId := anonId, meetingId := meetingId, joinedAt := now, role := role }
      let m1 : Meeting := { m with
        participants := ps
        isActive := true
        metadata := { m.metadata with
          startedAt := if m.isActive then m.metadata.startedAt else some now
          participantCount := ps.length } }
      let st1 : MeetingState := { st with
        meetings := listSet st.meetings meetingId m1
        participants := listSet st.participants socketId part }
      (.ok meetingId (sanitizeMeeting m1) role (getMeetingParticipants st1 meetingId), st1)

/-- Outcome of MeetingService.leaveMeeting. -/
inductive LeaveMeetingResult where
  | err (msg : String)
  | ok (meetingId : String) (participantCount : Nat)
deriving DecidableEq, Repr

/-- MeetingService.leaveMeeting. Emptying a meeting ends it; the autoDelete
path only schedules a deferred deletion (setTimeout), which is not part of
the synchronous state change modelled here. JavaScript subtraction against
a null startedAt treats it as 0. -/
def leaveMeeting (st : MeetingState) (socketId : String) (now : Nat) :
    LeaveMeetingResult × MeetingState :=
  match listGet st.participants socketId with
  | none => (.err "Participant not found", st)
  | some part =>
    match listGet st.meetings part.meetingId with
    | some m =>
      let ps := m.participants.erase socketId
      let m1 : Meeting :=
        if ps.length = 0 then
          { m with participants := ps
                   isActive := false
                   metadata := { m.metadata with
                     participantCount := ps.length
                     endedAt := some now
                     totalDuration := (now : Int) - (m.metadata.startedAt.getD 0 : Nat) } }
        else
          { m with participants := ps
                   metadata := { m.metadata with participantCount := ps.length } }
      (.ok part.meetingId ps.length,
       { st with meetings := listSet st.meetings part.meetingId m1
                 participants := listDelete st.participants socketId })
    | none =>
      (.ok part.meetingId 0, { st with participants := listDelete st.participants socketId })

/-- Outcome of MeetingService.updateMeeting. -/
inductive UpdateMeetingResult where
  | err (msg : String)
  | ok (meeting : SanitizedMeeting)
deriving DecidableEq, Repr

/-- The updates object of MeetingService.updateMeeting, restricted to its
allowed keys. -/
structure MeetingUpdates where
  title : Option String
  maxParticipants : Option Nat
  allowScreenShare : Option Bool
  allowChat : Option Bool
deriving DecidableEq, Repr

/-- MeetingService.updateMeeting: host only; title and maxParticipants land
on the meeting, the two allow flags land on its settings. The source
applies any supplied maxParticipants without comparing it to the current
participant count. -/
def updateMeeting (st : MeetingState) (socketId meetingId : String) (u : MeetingUpdates) :
    UpdateMeetingResult × MeetingState :=
  match listGet st.participants socketId, listGet st.meetings meetingId with
  | some part, some m =>
    if part.role != "host" then (.err "Only host can update meeting settings", st)
    else
      let m1 : Meeting := { m with
        title := u.title.getD m.title
        maxParticipants := u.maxParticipants.getD m.maxParticipants
        settings := { m.settings with
          allowScreenShare := u.allowScreenShare.getD m.settings.allowScreenShare
          allowChat := u.allowChat.getD m.settings.allowChat } }
      (.ok (sanitizeMeeting m1), { st with meetings := listSet st.meetings meetingId m1 })
  | _, _ => (.err "Meeting or participant not found", st)

/-- A meeting chat message as built by MeetingService.handleMeetingMessage;
its id and timestamp are both Date.now(). -/
structure MeetingMessage where
  id : Nat
  anonId : String
  text : String
  timestamp : Nat
  type : String
deriving DecidableEq, Repr

/-- Outcome of MeetingService.handleMeetingMessage. -/
inductive MeetingMessageResult where
  | err (msg : String)
  | ok (meetingId : String) (message : MeetingMessage) (participants : List String)
deriving DecidableEq, Repr

/-- MeetingService.handleMeetingMessage: requires a registered participant
and a meeting with chat allowed; never mutates state. -/
def handleMeetingMessage (st : MeetingState) (socketId text : String) (now : Nat) :
    MeetingMessageResult × MeetingState :=
  match listGet st.participants socketId with
  | none => (.err "Participant not found", st)
  | some part =>
    match listGet st.meetings part.meetingId with
    | none => (.err "Chat not allowed in this meeting", st)
    | some m =>
      if m.settings.allowChat then
        (.ok part.meetingId
          { id := now, anonId := part.anonId, text := text, timestamp := now, type := "chat" }
          m.participants, st)
      else (.err "Chat not allowed in this meeting", st)

/-!
WebRTCService (src/unnamed/part_005, second document): two-party video
signaling rooms with per-socket offer, answer and ICE-candidate buffers.
-/

/-- An entry of the `this.participants` Map of WebRTCService. -/
structure RTCParticipant where
  anonId : String
  roomId : String
deriving DecidableEq, Repr

/-- A video room as built by WebRTCService.createRoom. -/
structure VideoRoom where
  participants : List String
  offers : List (String × String)
  answers : List (String × String)
  iceCandidate : List (String × List String)
  createdBy : String
  createdAt : Nat
  maxParticipants : Nat
deriving DecidableEq, Repr

/-- The mutable state of WebRTCService. -/
structure RTCState where
  rooms : List (String × VideoRoom)
  participants : List (String × RTCParticipant)
deriving DecidableEq, Repr

/-- WebRTCService.createRoom: an empty room with capacity fixed at 2; the
random room id is a parameter and is echoed back as the result. -/
def createRoom (st : RTCState) (anonId roomId : String) (now : Nat) : String × RTCState :=
  let room : VideoRoom := { participants := [], offers := [], answers := [], iceCandidate := [],
                            createdBy := anonId, createdAt := now, maxParticipants := 2 }
  (roomId, { st with rooms := listSet st.rooms roomId room })

/-- Outcome of WebRTCService.joinRoom. -/
inductive RTCJoinResult where
  | err (msg : String)
  | ok (roomId : String) (participantCount : Nat) (participants : List String)
deriving DecidableEq, Repr

/-- WebRTCService.joinRoom: existence and capacity checks, then admission;
the result lists the anonIds of the members, resolved through the updated
participants Map with Unknown for unresolved sockets. -/
def joinRoom (st : RTCState) (socketId anonId roomId : String) : RTCJoinResult × RTCState :=
  match listGet st.rooms roomId with
  | none => (.err "Room not found", st)
  | some room =>
    if room.participants.length ≥ room.maxParticipants then (.err "Room is full", st)
    else
      let ps := addElem room.participants socketId
      let parts1 := listSet st.participants socketId { anonId := anonId, roomId := roomId }
      (.ok roomId ps.length
        (ps.map (fun id => match listGet parts1 id with
          | some p => p.anonId
          | none => "Unknown")),
       { st with rooms := listSet st.rooms roomId ({ room with participants := ps }),
                 participants := parts1 })

/-- Outcome of WebRTCService.leaveRoom. -/
inductive RTCLeaveResult where
  | err (msg : String)
  | ok (roomId : String) (participantCount : Nat)
deriving DecidableEq, Repr

/-- WebRTCService.leaveRoom: drops the socket from the room and all its
signaling buffers, deletes an emptied room, and reports the size of the
room object it mutated (0 when the room was already gone). -/
def leaveRoom (st : RTCState) (socketId : String) : RTCLeaveResult × RTCState :=
  match listGet st.participants socketId with
  | none => (.err "Participant not found", st)
  | some part =>
    match listGet st.rooms part.roomId with
    | some room =>
      let room1 : VideoRoom := { room with
        participants := room.participants.erase socketId
        offers := listDelete room.offers socketId
        answers := listDelete room.answers socketId
        iceCandidate := listDelete room.iceCandidate socketId }
      let rooms1 := if room1.participants.length = 0 then listDelete st.rooms part.roomId
        else listSet st.rooms part.roomId room1
      (.ok part.roomId room1.participants.length,
       { st with rooms := rooms1, participants := listDelete st.participants socketId })
    | none =>
      (.ok part.roomId 0, { st with participants := listDelete st.participants socketId })

/-- WebRTCService.getOtherParticipant: the first member that is not the
sender, if any. -/
def getOtherParticipant (socketId : String) (room : VideoRoom) : Option String :=
  room.participants.find? (fun id => id != socketId)

/-- Outcome of the three signaling relays (offer, answer, ICE candidate).
A success carries the resolved target, which the source leaves null when
no explicit target was supplied and no other participant exists. -/
inductive SignalResult where
  | err (msg : String)
  | ok (roomId : String) (payload : String) (fromAnonId : String) (fromSocketId : String)
       (targetSocketId : Option String)
deriving DecidableEq, Repr

/-- The target fallback `targetSocketId || getOtherParticipant(...)` of the
source; an empty string is falsy in JavaScript. -/
def jsOrTarget (target : Option String) (other : Option String) : Option String :=
  match target with
  | some t => if t = "" then other else some t
  | none => other

/-- WebRTCService.handleOffer: stores the offer in the room buffer and
resolves the delivery target. -/
def handleOffer (st : RTCState) (socketId offer : String) (target : Option String) :
    SignalResult × RTCState :=
  match listGet st.participants socketId with
  | none => (.err "Participant not found", st)
  | some part =>
    match listGet st.rooms part.roomId with
    | none => (.err "Room not found", st)
    | some room =>
      let room1 : VideoRoom := { room with offers := listSet room.offers socketId offer }
      (.ok part.roomId offer part.anonId socketId
        (jsOrTarget target (getOtherParticipant socketId room)),
       { st with rooms := listSet st.rooms part.roomId room1 })

/-- WebRTCService.handleAnswer: same shape as handleOffer over the answer
buffer. -/
def handleAnswer (st : RTCState) (socketId answer : String) (target : Option String) :
    SignalResult × RTCState :=
  match listGet st.participants socketId with
  | none => (.err "Participant not found", st)
  | some part =>
    match listGet st.rooms part.roomId with
    | none => (.err "Room not found", st)
    | some room =>
      let room1 : VideoRoom := { room with answers := listSet room.answers socketId answer }
      (.ok part.roomId answer part.anonId socketId
        (jsOrTarget target (getOtherParticipant socketId room)),
       { st with rooms := listSet st.rooms part.roomId room1 })

/-- WebRTCService.handleIceCandidate: appends the candidate to the sender
buffer (created on first use) and resolves the delivery target. -/
def handleIceCandidate (st : RTCState) (socketId candidate : String) (target : Option String) :
    SignalResult × RTCState :=
  match listGet st.participants socketId with
  | none => (.err "Participant not found", st)
  | some part =>
    match listGet st.rooms part.roomId with
    | none => (.err "Room not found", st)
    | some room =>
      let prev := (listGet room.iceCandidate socketId).getD []
      let room1 : VideoRoom := { room with
        iceCandidate := listSet room.iceCandidate socketId (prev ++ [candidate]) }
      (.ok part.roomId candidate part.anonId socketId
        (jsOrTarget target (getOtherParticipant socketId room)),
       { st with rooms := listSet st.rooms part.roomId room1 })

/-!
Rate limiting (ghostlink-backend/src/middleware/rateLimiter.js): the static
per-class policies and the AdaptiveRateLimiter adjustment step.
-/

/-- One operation-class policy of the `rateLimiters` table. -/
structure LimiterPolicy where
  name : String
  points : Int
  duration : Nat
  blockDuration : Nat
deriving DecidableEq, Repr

/-- The six configured operation classes with their points, window duration
and block duration in seconds. -/
def rateLimiters : List LimiterPolicy :=
  [{ name := "api", points := 100, duration := 60, blockDuration := 60 },
   { name := "messages", points := 30, duration := 60, blockDuration := 120 },
   { name := "anonId", points := 5, duration := 300, blockDuration := 300 },
   { name := "roomCreation", points := 3, duration := 3600, blockDuration := 1800 },
   { name := "webrtc", points := 200, duration := 60, blockDuration := 60 },
   { name := "auth", points := 10, duration := 300, blockDuration := 900 }]

/-- AdaptiveRateLimiter.basePoints. -/
def basePoints : ℚ := 100

/-- The multiplier update of AdaptiveRateLimiter.adjustLimits: down 0.1 with
a floor of 0.5 above 80 percent heap use, up 0.1 with a ceiling of 2.0
below 50 percent, otherwise unchanged. -/
def adjustMultiplier (current memPercent : ℚ) : ℚ :=
  if 8/10 < memPercent then max (1/2) (current - 1/10)
  else if memPercent < 1/2 then min 2 (current + 1/10)
  else current

/-- The points rewrite of AdaptiveRateLimiter.adjustLimits: every limiter
with truthy points is set to Math.floor of basePoints times the current
multiplier. -/
def adjustPoints (current : ℚ) (policies : List LimiterPolicy) : List LimiterPolicy :=
  policies.map (fun p => if p.points ≠ 0 then { p with points := ⌊basePoints * current⌋ } else p)

/-!
AuthService (src/unnamed/part_004) and the refresh route
(ghostlink-backend/src/routes/auth.js). Claims quantify over valid
credentials, so the cryptographic signature (out of scope per the spec) is
modelled as always verifying; jwt.verify then fails exactly on expiry,
comparing the exp claim in seconds against the current clock. -/

/-- The payload of a temporary token; iat and exp are seconds. -/
structure TokenPayload where
  anonId : String
  iat : Nat
  exp : Nat
deriving DecidableEq, Repr

/-- AuthService.generateTempToken: a fresh token with a one-hour lifetime. -/
def generateTempToken (anonId : String) (nowMs : Nat) : TokenPayload :=
  { anonId := anonId, iat := nowMs / 1000, exp := nowMs / 1000 + 3600 }

/-- AuthService.verifyTempToken: the decoded payload, or none once
expired. -/
def verifyTempToken (t : TokenPayload) (nowMs : Nat) : Option TokenPayload :=
  if nowMs / 1000 < t.exp then some t else none

/-- Outcome of the POST refresh-token route. -/
inductive RefreshResult where
  | invalid
  | refreshed (anonId : String) (token : TokenPayload)
  | noRefresh (timeRemaining : Int)
deriving DecidableEq, Repr

/-- The POST refresh-token route: verify, then reissue only when less than
ten minutes remain, otherwise report the remaining lifetime. -/
def refreshToken (t : TokenPayload) (nowMs : Nat) : RefreshResult :=
  match verifyTempToken t nowMs with
  | none => .invalid
  | some d =>
    let timeUntilExpiry : Int := (d.exp : Int) * 1000 - (nowMs : Int)
    if timeUntilExpiry < 10 * 60 * 1000 then .refreshed d.anonId (generateTempToken d.anonId nowMs)
    else .noRefresh timeUntilExpiry

/-- AuthService.hashRoomPasscode over an abstract hash standing for
sha256-hex. -/
def hashRoomPasscode (sha256hex : String → String) (passcode : String) : String :=
  sha256hex passcode

/-- AuthService.verifyRoomPasscode: hashes the supplied passcode and
compares it with the stored hash. -/
def verifyRoomPasscode (sha256hex : String → String) (passcode hash : String) : Bool :=
  hashRoomPasscode sha256hex passcode == hash

/-!
Capacity invariants and the operation step functions used to state them
over arbitrary operation sequences.
-/

/-- Capacity bound for one entry of the ChatService rooms Map; message-id
arrays carry no capacity. -/
def entryOk : RoomEntry → Bool
  | .burner r => decide (r.participants.length ≤ r.maxParticipants)
  | .msgs _ => true

/-- Every burner room respects its capacity. -/
def chatInv (st : ChatState) : Prop := ∀ p ∈ st.rooms, entryOk p.2 = true

/-- Duplicate-freeness of one entry of the ChatService rooms Map; the source
stores participants in a Set, so every reachable state satisfies this. -/
def entryNodup : RoomEntry → Bool
  | .burner r => decide r.participants.Nodup
  | .msgs _ => true

/-- Every burner room has a duplicate-free participant list. -/
def chatWF (st : ChatState) : Prop := ∀ p ∈ st.rooms, entryNodup p.2 = true

/-- Every meeting respects its capacity. -/
def meetingInv (st : MeetingState) : Prop :=
  ∀ p ∈ st.meetings, p.2.participants.length ≤ p.2.maxParticipants

/-- Every video room respects its capacity. -/
def rtcInv (st : RTCState) : Prop :=
  ∀ p ∈ st.rooms, p.2.participants.length ≤ p.2.maxParticipants

/-- One ChatService room operation. -/
inductive ChatOp where
  | create (creator roomId passcode : String) (now : Nat)
  | join (roomId passcode anonId : String) (now : Nat)
  | leave (roomId anonId : String)

/-- State effect of one ChatService room operation. -/
def applyChatOp (st : ChatState) (op : ChatOp) : ChatState :=
  match op with
  | .create c rid pc now => (createBurnerRoom st c rid pc now).2
  | .join rid pc a now => (joinBurnerRoom st rid pc a now).2
  | .leave rid a => leaveBurnerRoom st rid a

/-- One MeetingService operation, updateMeeting excluded: updateMeeting can
rewrite maxParticipants below the current participant count. -/
inductive MeetingOp where
  | create (anonId meetingId passcode : String) (d : MeetingData) (now : Nat)
  | join (socketId anonId meetingId passcode : String) (now : Nat)
  | leave (socketId : String) (now : Nat)

/-- State effect of one MeetingService operation. -/
def applyMeetingOp (st : MeetingState) (op : MeetingOp) : MeetingState :=
  match op with
  | .create a mid pc d now => (createMeeting st a mid pc d now).2
  | .join sid a mid pc now => (joinMeeting st sid a mid pc now).2
  | .leave sid now => (leaveMeeting st sid now).2

/-- One WebRTCService room operation. -/
inductive RTCOp where
  | create (anonId roomId : String) (now : Nat)
  | join (socketId anonId roomId : String)
  | leave (socketId : String)

/-- State effect of one WebRTCService room operation. -/
def applyRTCOp (st : RTCState) (op : RTCOp) : RTCState :=
  match op with
  | .create a rid now => (createRoom st a rid now).2
  | .join sid a rid => (joinRoom st sid a rid).2
  | .leave sid => (leaveRoom st sid).2

theorem chatInv_createBurnerRoom (st : ChatState) (c rid pc : String) (now : Nat)
    (h : chatInv st) : chatInv (createBurnerRoom st c rid pc now).2 := by
  intro p hp
  simp only [createBurnerRoom] at hp
  rcases mem_listSet hp with h1 | h1
  · rw [h1]; rfl
  · exact h p h1

theorem chatInv_joinBurnerRoom (st : ChatState) (rid pc a : String) (now : Nat)
    (h : chatInv st) : chatInv (joinBurnerRoom st rid pc a now).2 := by
  cases hlk : listGet st.rooms rid with
  | none => simpa only [joinBurnerRoom, hlk] using h
  | some entry =>
    cases entry with
    | msgs ids => simpa only [joinBurnerRoom, hlk] using h
    | burner room =>
      simp only [joinBurnerRoom, hlk]
      by_cases h1 : room.expires ≤ now
      · simp only [if_pos h1]
        intro p hp
        exact h p (mem_listDelete hp)
      · simp only [if_neg h1]
        by_cases h2 : (room.passcode != pc) = true
        · simp only [h2, if_true]; exact h
        · simp only [eq_false_of_ne_true h2, if_false]
          by_cases h3 : room.participants.length ≥ room.maxParticipants
          · simp only [if_pos h3]; exact h
          · simp only [if_neg h3]
            intro p hp
            rcases mem_listSet hp with h4 | h4
            · rw [h4]
              simp only [entryOk, decide_eq_true_eq]
              have h5 := length_addElem_le room.participants a
              omega
            · exact h p h4

theorem chatInv_leaveBurnerRoom (st : ChatState) (rid a : String)
    (h : chatInv st) : chatInv (leaveBurnerRoom st rid a) := by
  cases hlk : listGet st.rooms rid with
  | none => simpa only [leaveBurnerRoom, hlk] using h
  | some entry =>
    cases entry with
    | msgs ids => simpa only [leaveBurnerRoom, hlk] using h
    | burner room =>
      simp only [leaveBurnerRoom, hlk]
      by_cases h1 : (room.participants.erase a).length = 0
      · simp only [if_pos h1]
        intro p hp
        exact h p (mem_listDelete hp)
      · simp only [if_neg h1]
        intro p hp
        rcases mem_listSet hp with h4 | h4
        · rw [h4]
          simp only [entryOk, decide_eq_true_eq]
          have h5 : entryOk (RoomEntry.burner room) = true := h (rid, RoomEntry.burner room) (listGet_mem hlk)
          simp only [entryOk, decide_eq_true_eq] at h5
          have h6 := (List.erase_sublist a room.participants).length_le
          omega
        · exact h p h4

theorem meetingInv_createMeeting (st : MeetingState) (a mid pc : String) (d : MeetingData)
    (now : Nat) (h : meetingInv st) : meetingInv (createMeeting st a mid pc d now).2 := by
  intro p hp
  simp only [createMeeting] at hp
  rcases mem_listSet hp with h1 | h1
  · rw [h1]; simp [createdMeeting]
  · exact h p h1

theorem meetingInv_joinMeeting (st : MeetingState) (sid a mid pc : String) (now : Nat)
    (h : meetingInv st) : meetingInv (joinMeeting st sid a mid pc now).2 := by
  cases hlk : listGet st.meetings mid with
  | none => simpa only [joinMeeting, hlk] using h
  | some m =>
    simp only [joinMeeting, hlk]
    by_cases h1 : isMeetingExpired m now = true
    · simp only [h1, if_true]
      intro p hp
      exact h p (mem_listDelete hp)
    · simp only [eq_false_of_ne_true h1, if_false]
      by_cases h2 : (m.settings.requirePasscode && m.passcode != pc) = true
      · simp only [h2, if_true]; exact h
      · simp only [eq_false_of_ne_true h2, if_false]
        by_cases h3 : m.participants.length ≥ m.maxParticipants
        · simp only [if_pos h3]; exact h
        · simp only [if_neg h3]
          intro p hp
          rcases mem_listSet hp with h4 | h4
          · rw [h4]
            simp only []
            have h5 := length_addElem_le m.participants sid
            omega
          · exact h p h4

theorem meetingInv_leaveMeeting (st : MeetingState) (sid : String) (now : Nat)
    (h : meetingInv st) : meetingInv (leaveMeeting st sid now).2 := by
  cases hlk : listGet st.participants sid with
  | none => simpa only [leaveMeeting, hlk] using h
  | some part =>
    cases hm : listGet st.meetings part.meetingId with
    | none => simp only [leaveMeeting, hlk, hm]; exact h
    | some m =>
      simp only [leaveMeeting, hlk, hm]
      intro p hp
      rcases mem_listSet hp with h4 | h4
      · have h5 : m.participants.length ≤ m.maxParticipants :=
          h (part.meetingId, m) (listGet_mem hm)
        have h6 := (List.erase_sublist sid m.participants).length_le
        rw [h4]
        by_cases h7 : (m.participants.erase sid).length = 0
        · simp only [if_pos h7]
          omega
        · simp only [if_neg h7]
          omega
      · exact h p h4

theorem rtcInv_createRoom (st : RTCState) (a rid : String) (now : Nat)
    (h : rtcInv st) : rtcInv (createRoom st a rid now).2 := by
  intro p hp
  simp only [createRoom] at hp
  rcases mem_listSet hp with h1 | h1
  · rw [h1]; simp
  · exact h p h1

theorem rtcInv_joinRoom (st : RTCState) (sid a rid : String)
    (h : rtcInv st) : rtcInv (joinRoom st sid a rid).2 := by
  cases hlk : listGet st.rooms rid with
  | none => simpa only [joinRoom, hlk] using h
  | some room =>
    simp only [joinRoom, hlk]
    by_cases h3 : room.participants.length ≥ room.maxParticipants
    · simp only [if_pos h3]; exact h
    · simp only [if_neg h3]
      intro p hp
      rcases mem_listSet hp with h4 | h4
      · rw [h4]
        simp only []
        have h5 := length_addElem_le room.participants sid
        omega
      · exact h p h4

theorem rtcInv_leaveRoom (st : RTCState) (sid : String)
    (h : rtcInv st) : rtcInv (leaveRoom st sid).2 := by
  cases hlk : listGet st.participants sid with
  | none => simpa only [leaveRoom, hlk] using h
  | some part =>
    cases hm : listGet st.rooms part.roomId with
    | none => simp only [leaveRoom, hlk, hm]; exact h
    | some room =>
      simp only [leaveRoom, hlk, hm]
      by_cases h7 : (room.participants.erase sid).length = 0
      · simp only [if_pos h7]
        intro p hp
        exact h p (mem_listDelete hp)
      · simp only [if_neg h7]
        intro p hp
        rcases mem_listSet hp with h4 | h4
        · have h5 : room.participants.length ≤ room.maxParticipants :=
            h (part.roomId, room) (listGet_mem hm)
          have h6 := (List.erase_sublist sid room.participants).length_le
          rw [h4]
          dsimp only
          omega
        · exact h p h4

theorem chatInv_step (st : ChatState) (op : ChatOp) (h : chatInv st) :
    chatInv (applyChatOp st op) := by
  cases op with
  | create c rid pc now => exact chatInv_createBurnerRoom st c rid pc now h
  | join rid pc a now => exact chatInv_joinBurnerRoom st rid pc a now h
  | leave rid a => exact chatInv_leaveBurnerRoom st rid a h

theorem meetingInv_step (st : MeetingState) (op : MeetingOp) (h : meetingInv st) :
    meetingInv (applyMeetingOp st op) := by
  cases op with
  | create a mid pc d now => exact meetingInv_createMeeting st a mid pc d now h
  | join sid a mid pc now => exact meetingInv_joinMeeting st sid a mid pc now h
  | leave sid now => exact meetingInv_leaveMeeting st sid now h

theorem rtcInv_step (st : RTCState) (op : RTCOp) (h : rtcInv st) :
    rtcInv (applyRTCOp st op) := by
  cases op with
  | create a rid now => exact rtcInv_createRoom st a rid now h
  | join sid a rid => exact rtcInv_joinRoom st sid a rid h
  | leave sid => exact rtcInv_leaveRoom st sid h

/-!
Claim C1: capacity invariant across create, join, updateSettings and leave.
-/

/-- Meeting creation parameters used in the capacity scenario: scheduled at
instant 1 for one hour, capacity 2. -/
def capMeetingData : MeetingData :=
  { title := none, scheduledFor := some 1, duration := some 3600000,
    maxParticipants := some 2, allowScreenShare := none, allowChat := none,
    requirePasscode := none, autoDelete := none }

/-- The state after host H creates meeting M with capacity 2 and two
participants join, then H lowers maxParticipants to 1 through
updateMeeting. -/
def capBrokenState : MeetingState :=
  (updateMeeting
    (joinMeeting
      (joinMeeting (createMeeting { meetings := [], participants := [] } "H" "M" "PC"
          capMeetingData 1).2
        "s1" "H" "M" "PC" 2).2
      "s2" "B" "M" "PC" 3).2
    "s1" "M"
    { title := none, maxParticipants := some 1, allowScreenShare := none, allowChat := none }).2

/-- Claim C1 (counterexample): after create, two joins and a host
updateMeeting that lowers maxParticipants to 1, meeting M holds 2
participants with maxParticipants 1, so the capacity invariant claimed for
every sequence of create, join, updateMeeting and leave operations fails:
updateMeeting applies the new limit without comparing it to the current
participant count. -/
theorem updateMeeting_capacity_cx :
    (listGet capBrokenState.meetings "M").map
        (fun m => (m.participants.length, m.maxParticipants)) = some (2, 1) ∧
    ¬ meetingInv capBrokenState := by
  constructor
  · rfl
  · unfold meetingInv
    decide

/-- Claim C1 (amended): for every room kind, join refuses with a full-room
error when the participant count has reached maxParticipants, and any
sequence of create, join and leave operations preserves the capacity
invariant for every room; updateMeeting is excluded, since it can set
maxParticipants below the current participant count (see the
counterexample). -/
theorem capacity_invariant_amended :
    (∀ (ops : List ChatOp) (st : ChatState), chatInv st → chatInv (ops.foldl applyChatOp st)) ∧
    (∀ (ops : List MeetingOp) (st : MeetingState), meetingInv st →
      meetingInv (ops.foldl applyMeetingOp st)) ∧
    (∀ (ops : List RTCOp) (st : RTCState), rtcInv st → rtcInv (ops.foldl applyRTCOp st)) ∧
    (∀ (st : ChatState) (rid pc a : String) (now : Nat) (r : BurnerRoom),
      listGet st.rooms rid = some (RoomEntry.burner r) → now < r.expires → r.passcode = pc →
      r.participants.length ≥ r.maxParticipants →
      joinBurnerRoom st rid pc a now = (JoinChatResult.err "Room is full", st)) ∧
    (∀ (st : MeetingState) (sid a mid pc : String) (now : Nat) (m : Meeting),
      listGet st.meetings mid = some m → isMeetingExpired m now = false →
      (m.settings.requirePasscode = false ∨ m.passcode = pc) →
      m.participants.length ≥ m.maxParticipants →
      joinMeeting st sid a mid pc now = (JoinMeetingResult.err "Meeting is full", st)) ∧
    (∀ (st : RTCState) (sid a rid : String) (room : VideoRoom),
      listGet st.rooms rid = some room →
      room.participants.length ≥ room.maxParticipants →
      joinRoom st sid a rid = (RTCJoinResult.err "Room is full", st)) := by
  refine ⟨?_, ?_, ?_, ?_, ?_, ?_⟩
  · intro ops
    induction ops with
    | nil => intro st h; exact h
    | cons op rest ih =>
      intro st h
      exact ih (applyChatOp st op) (chatInv_step st op h)
  · intro ops
    induction ops with
    | nil => intro st h; exact h
    | cons op rest ih =>
      intro st h
      exact ih (applyMeetingOp st op) (meetingInv_step st op h)
  · intro ops
    induction ops with
    | nil => intro st h; exact h
    | cons op rest ih =>
      intro st h
      exact ih (applyRTCOp st op) (rtcInv_step st op h)
  · intro st rid pc a now r hlk h1 h2 h3
    subst h2
    have hne : ¬ r.expires ≤ now := by omega
    simp [joinBurnerRoom, hlk, hne, h3]
  · intro st sid a mid pc now m hlk hex hpc h3
    have hc : (m.settings.requirePasscode && m.passcode != pc) = false := by
      rcases hpc with hc1 | hc1
      · simp [hc1]
      · simp [hc1]
    simp [joinMeeting, hlk, hex, hc, h3]
  · intro st sid a rid room hlk h3
    simp [joinRoom, hlk, h3]

/-- Claim C1 (witness): the amended invariant instantiated on the concrete
meeting scenario of the counterexample without the updateMeeting step. -/
theorem capacity_invariant_witness :
    meetingInv (List.foldl applyMeetingOp { meetings := [], participants := [] }
      [MeetingOp.create "H" "M" "PC" capMeetingData 1,
       MeetingOp.join "s1" "H" "M" "PC" 2,
       MeetingOp.join "s2" "B" "M" "PC" 3]) :=
  capacity_invariant_amended.2.1
    [MeetingOp.create "H" "M" "PC" capMeetingData 1,
     MeetingOp.join "s1" "H" "M" "PC" 2,
     MeetingOp.join "s2" "B" "M" "PC" 3]
    { meetings := [], participants := [] }
    (by intro p hp; simp at hp)

/-!
Claim C2: lazy expiry check on every read.
-/

/-- A burner room that expired at instant 5. -/
def expiredRoom : BurnerRoom :=
  { id := "R", passcode := "PC", creator := "H", created := 0, expires := 5,
    participants := ["H"], maxParticipants := 10 }

/-- A chat state holding only the expired room. -/
def expiredChatState : ChatState :=
  { messages := [], rooms := [("R", RoomEntry.burner expiredRoom)] }

/-- Claim C2 (counterexample): at instant 10 the room is logically expired,
yet ChatService.getRoomInfo still returns its summary (with timeRemaining
clamped to 0) instead of treating it as deleted and answering not-found:
the room-info read performs no lazy expiry check. -/
theorem getRoomInfo_expired_cx :
    expiredRoom.expires ≤ 10 ∧
    getRoomInfo expiredChatState "R" 10 =
      some { id := "R", participantCount := 1, maxParticipants := 10,
             created := 0, expires := 5, timeRemaining := 0 } := by
  constructor
  · decide
  · rfl

/-- Claim C2 (amended): the join paths do delete on access, and message
retrieval filters out expired messages, but the room-info reads of
ChatService and WebRTCService return logically-expired entities: a join of
an expired burner room deletes it and throws, a join of an expired meeting
deletes it and errors, and every message returned by getRecentMessages is
unexpired. -/
theorem lazy_expiry_amended :
    (∀ (st : ChatState) (rid pc a : String) (now : Nat) (r : BurnerRoom),
      listGet st.rooms rid = some (RoomEntry.burner r) → r.expires ≤ now →
      joinBurnerRoom st rid pc a now =
        (JoinChatResult.err "Room expired", { st with rooms := listDelete st.rooms rid })) ∧
    (∀ (st : MeetingState) (sid a mid pc : String) (now : Nat) (m : Meeting),
      listGet st.meetings mid = some m → isMeetingExpired m now = true →
      joinMeeting st sid a mid pc now =
        (JoinMeetingResult.err "Meeting has expired",
         { st with meetings := listDelete st.meetings mid })) ∧
    (∀ (st : ChatState) (room : String) (limit now : Nat),
      ∀ msg ∈ getRecentMessages st room limit now, now < msg.expires) := by
  refine ⟨?_, ?_, ?_⟩
  · intro st rid pc a now r hlk h1
    simp [joinBurnerRoom, hlk, h1]
  · intro st sid a mid pc now m hlk h1
    simp [joinMeeting, hlk, h1]
  · intro st room limit now msg hmem
    simp only [getRecentMessages, List.mem_filter, decide_eq_true_eq] at hmem
    exact hmem.2

/-- Claim C2 (witness): delete-on-access instantiated on the concrete
expired room: the join at instant 10 throws and removes the room. -/
theorem lazy_expiry_witness :
    joinBurnerRoom expiredChatState "R" "PC" "B" 10 =
      (JoinChatResult.err "Room expired",
       { expiredChatState with rooms := listDelete expiredChatState.rooms "R" }) :=
  lazy_expiry_amended.1 expiredChatState "R" "PC" "B" 10 expiredRoom rfl (by decide)

/-!
Claim C3: passcode verification against a stored hash.
-/

/-- The state after creating a burner room with passcode ABCDEF. -/
def passcodeState : ChatState :=
  (createBurnerRoom { messages := [], rooms := [] } "H" "R" "ABCDEF" 0).2

/-- Claim C3 (counterexample): the created room stores the plaintext
passcode itself in its passcode field, and join decides by plaintext
equality: for the collapsing hash function that sends everything to
COLLIDE, a hash-against-stored-hash check accepts the wrong passcode
WRONG, while joinBurnerRoom rejects it, so the check joinBurnerRoom
performs is not a comparison of hashes; AuthService.verifyRoomPasscode
(which does compare hashes) is never called on the join paths. -/
theorem passcode_plaintext_cx :
    listGet passcodeState.rooms "R" =
      some (RoomEntry.burner
        { id := "R", passcode := "ABCDEF", creator := "H", created := 0,
          expires := 86400000, participants := ["H"], maxParticipants := 10 }) ∧
    (joinBurnerRoom passcodeState "R" "WRONG" "B" 1).1 =
      JoinChatResult.err "Invalid passcode" ∧
    verifyRoomPasscode (fun _ => "COLLIDE") "WRONG"
      (hashRoomPasscode (fun _ => "COLLIDE") "ABCDEF") = true := by
  refine ⟨rfl, rfl, rfl⟩

/-- Claim C3 (amended): both join paths compare the supplied plaintext
passcode directly against the stored plaintext passcode and reject exactly
on plaintext inequality; the hash-based AuthService.verifyRoomPasscode
exists but is not used by them. -/
theorem passcode_check_amended :
    (∀ (st : ChatState) (rid pc a : String) (now : Nat) (r : BurnerRoom),
      listGet st.rooms rid = some (RoomEntry.burner r) → now < r.expires →
      r.passcode ≠ pc →
      joinBurnerRoom st rid pc a now = (JoinChatResult.err "Invalid passcode", st)) ∧
    (∀ (st : MeetingState) (sid a mid pc : String) (now : Nat) (m : Meeting),
      listGet st.meetings mid = some m → isMeetingExpired m now = false →
      m.settings.requirePasscode = true → m.passcode ≠ pc →
      joinMeeting st sid a mid pc now = (JoinMeetingResult.err "Invalid passcode", st)) := by
  constructor
  · intro st rid pc a now r hlk h1 h2
    have hne : ¬ r.expires ≤ now := by omega
    simp [joinBurnerRoom, hlk, hne, h2]
  · intro st sid a mid pc now m hlk h1 h2 h3
    simp [joinMeeting, hlk, h1, h2, h3]

/-- Claim C3 (witness): the plaintext comparison instantiated on the
concrete room with stored passcode ABCDEF and supplied passcode WRONG. -/
theorem passcode_check_witness :
    joinBurnerRoom passcodeState "R" "WRONG" "B" 1 =
      (JoinChatResult.err "Invalid passcode", passcodeState) :=
  passcode_check_amended.1 passcodeState "R" "WRONG" "B" 1
    { id := "R", passcode := "ABCDEF", creator := "H", created := 0,
      expires := 86400000, participants := ["H"], maxParticipants := 10 }
    rfl (by decide) (by decide)

/-!
Claim C4: create registers the creator as sole participant.
-/

theorem jsOrNat_pos (x : Option Nat) (d : Nat) (hd : 0 < d) : 0 < jsOrNat x d := by
  cases x with
  | none => simpa [jsOrNat] using hd
  | some n =>
    by_cases hn : n = 0
    · simpa [jsOrNat, hn] using hd
    · simp [jsOrNat, hn]
      omega

/-- Claim C4 (counterexample): WebRTCService.createRoom leaves the new
video room with an empty participant set; the creator A is not registered
as its sole participant (the creator only enters through a separate
joinRoom call), so create does not register the creator for the signaling
kind. -/
theorem createRoom_empty_cx :
    (listGet (createRoom { rooms := [], participants := [] } "A" "R1" 100).2.rooms "R1").map
        VideoRoom.participants = some [] ∧
    ¬ ((listGet (createRoom { rooms := [], participants := [] } "A" "R1" 100).2.rooms "R1").map
        VideoRoom.participants = some ["A"]) := by
  constructor
  · rfl
  · decide

/-- Claim C4 (amended): createBurnerRoom registers the creator as sole
participant of a text room, but createRoom and createMeeting start with an
empty participant set; the creator of a meeting only becomes a participant
through a subsequent joinMeeting, which then assigns the host role because
the joining anonId equals createdBy. -/
theorem create_sole_participant_amended :
    (∀ (st : ChatState) (c rid pc : String) (now : Nat),
      listGet (createBurnerRoom st c rid pc now).2.rooms rid =
        some (RoomEntry.burner
          { id := rid, passcode := pc, creator := c, created := now,
            expires := now + 24 * 60 * 60 * 1000, participants := [c],
            maxParticipants := 10 })) ∧
    (∀ (st : RTCState) (c rid : String) (now : Nat),
      listGet (createRoom st c rid now).2.rooms rid =
        some { participants := [], offers := [], answers := [], iceCandidate := [],
               createdBy := c, createdAt := now, maxParticipants := 2 }) ∧
    (∀ (st : MeetingState) (c mid pc : String) (d : MeetingData) (now : Nat),
      (listGet (createMeeting st c mid pc d now).2.meetings mid).map Meeting.participants =
        some []) ∧
    (∀ (st : MeetingState) (c mid pc sid : String) (d : MeetingData) (now now2 : Nat),
      isMeetingExpired (createdMeeting c mid pc d now) now2 = false →
      listGet (joinMeeting (createMeeting st c mid pc d now).2 sid c mid pc now2).2.participants
          sid =
        some { anonId := c, meetingId := mid, joinedAt := now2, role := "host" }) := by
  refine ⟨?_, ?_, ?_, ?_⟩
  · intro st c rid pc now
    simp [createBurnerRoom, listGet_listSet_eq]
  · intro st c rid now
    simp [createRoom, listGet_listSet_eq]
  · intro st c mid pc d now
    simp [createMeeting, listGet_listSet_eq, createdMeeting]
  · intro st c mid pc sid d now now2 hex
    have hlk : listGet (createMeeting st c mid pc d now).2.meetings mid
        = some (createdMeeting c mid pc d now) := by
      simp [createMeeting, listGet_listSet_eq]
    have hmax : 0 < (createdMeeting c mid pc d now).maxParticipants :=
      jsOrNat_pos _ _ (by norm_num)
    have hcap : ¬ ((createdMeeting c mid pc d now).participants.length ≥
        (createdMeeting c mid pc d now).maxParticipants) := by
      have hpe : (createdMeeting c mid pc d now).participants = [] := rfl
      rw [hpe]
      simp
      omega
    have hpass : ((createdMeeting c mid pc d now).settings.requirePasscode &&
        (createdMeeting c mid pc d now).passcode != pc) = false := by
      have hp : (createdMeeting c mid pc d now).passcode = pc := rfl
      rw [hp]
      simp
    simp only [joinMeeting, hlk, hex, Bool.false_eq_true, if_false, hpass, hcap,
      if_true, if_neg hcap]
    have hrole : ((createdMeeting c mid pc d now).createdBy == c) = true := by
      have hc : (createdMeeting c mid pc d now).createdBy = c := rfl
      rw [hc]
      simp
    simp only [hrole, if_true]
    exact listGet_listSet_eq _ _ _

/-- Claim C4 (witness): the creator of a meeting created at instant 1
joins it at instant 2 and is registered with the host role. -/
theorem create_sole_participant_witness :
    listGet (joinMeeting
        (createMeeting { meetings := [], participants := [] } "H" "M" "PC" capMeetingData 1).2
        "s1" "H" "M" "PC" 2).2.participants "s1" =
      some { anonId := "H", meetingId := "M", joinedAt := 2, role := "host" } :=
  create_sole_participant_amended.2.2.2 { meetings := [], participants := [] }
    "H" "M" "PC" "s1" capMeetingData 1 2 (by decide)

/-!
Claim C5: implicit target resolution of the signaling relay.
-/

/-- A video room holding only the sender s1. -/
def loneRTCState : RTCState :=
  { rooms := [("R", { participants := ["s1"], offers := [], answers := [], iceCandidate := [],
                      createdBy := "A", createdAt := 0, maxParticipants := 2 })],
    participants := [("s1", { anonId := "A", roomId := "R" })] }

/-- Claim C5 (counterexample): in a room with a single participant,
relaying an offer with no explicit target reports success with a null
targetSocketId instead of returning a NoTarget error, contradicting the
claim that a relay in a room with fewer than 2 participants fails rather
than succeeding without a target. -/
theorem relay_no_target_cx :
    (handleOffer loneRTCState "s1" "offer-sdp" none).1 =
      SignalResult.ok "R" "offer-sdp" "A" "s1" none := by
  rfl

theorem getOtherParticipant_pair (s x y : String) (room : VideoRoom)
    (hps : room.participants = [x, y]) (hxy : x ≠ y) (hs : s = x ∨ s = y) :
    getOtherParticipant s room = some (if s = x then y else x) := by
  unfold getOtherParticipant
  rw [hps]
  rcases hs with hs | hs
  · subst hs
    have h1 : (s != s) = false := by simp
    have h2 : (y != s) = true := by simp [bne_iff_ne]; exact fun h => hxy h.symm
    simp [List.find?, h1, h2]
  · subst hs
    by_cases hxs : x = s
    · exact absurd hxs hxy
    · have hsx : ¬ s = x := fun h => hxs h.symm
      have h1 : (x != s) = true := by simp [bne_iff_ne, hxs]
      simp [List.find?, h1, hsx]

theorem getOtherParticipant_single (s : String) (room : VideoRoom)
    (hps : room.participants = [s]) : getOtherParticipant s room = none := by
  unfold getOtherParticipant
  rw [hps]
  simp [List.find?]

/-- Claim C5 (amended): for each of the three relays (offer, answer, ICE
candidate) with no explicit target: in a room with exactly two distinct
participants the envelope is targeted at the participant that is not the
sender, while in a room holding only the sender the relay still reports
success, with a null target, rather than a NoTarget error. -/
theorem relay_target_amended :
    (∀ (st : RTCState) (s pl x y : String) (part : RTCParticipant) (room : VideoRoom),
      listGet st.participants s = some part →
      listGet st.rooms part.roomId = some room →
      room.participants = [x, y] → x ≠ y → (s = x ∨ s = y) →
      (handleOffer st s pl none).1 =
        SignalResult.ok part.roomId pl part.anonId s (some (if s = x then y else x))) ∧
    (∀ (st : RTCState) (s pl : String) (part : RTCParticipant) (room : VideoRoom),
      listGet st.participants s = some part →
      listGet st.rooms part.roomId = some room →
      room.participants = [s] →
      (handleOffer st s pl none).1 = SignalResult.ok part.roomId pl part.anonId s none) ∧
    (∀ (st : RTCState) (s pl x y : String) (part : RTCParticipant) (room : VideoRoom),
      listGet st.participants s = some part →
      listGet st.rooms part.roomId = some room →
      room.participants = [x, y] → x ≠ y → (s = x ∨ s = y) →
      (handleAnswer st s pl none).1 =
        SignalResult.ok part.roomId pl part.anonId s (some (if s = x then y else x))) ∧
    (∀ (st : RTCState) (s pl : String) (part : RTCParticipant) (room : VideoRoom),
      listGet st.participants s = some part →
      listGet st.rooms part.roomId = some room →
      room.participants = [s] →
      (handleAnswer st s pl none).1 = SignalResult.ok part.roomId pl part.anonId s none) ∧
    (∀ (st : RTCState) (s pl x y : String) (part : RTCParticipant) (room : VideoRoom),
      listGet st.participants s = some part →
      listGet st.rooms part.roomId = some room →
      room.participants = [x, y] → x ≠ y → (s = x ∨ s = y) →
      (handleIceCandidate st s pl none).1 =
        SignalResult.ok part.roomId pl part.anonId s (some (if s = x then y else x))) ∧
    (∀ (st : RTCState) (s pl : String) (part : RTCParticipant) (room : VideoRoom),
      listGet st.participants s = some part →
      listGet st.rooms part.roomId = some room →
      room.participants = [s] →
      (handleIceCandidate st s pl none).1 = SignalResult.ok part.roomId pl part.anonId s none) := by
  refine ⟨?_, ?_, ?_, ?_, ?_, ?_⟩
  · intro st s pl x y part room hp hr hps hxy hs
    simp [handleOffer, hp, hr, jsOrTarget, getOtherParticipant_pair s x y room hps hxy hs]
  · intro st s pl part room hp hr hps
    simp [handleOffer, hp, hr, jsOrTarget, getOtherParticipant_single s room hps]
  · intro st s pl x y part room hp hr hps hxy hs
    simp [handleAnswer, hp, hr, jsOrTarget, getOtherParticipant_pair s x y room hps hxy hs]
  · intro st s pl part room hp hr hps
    simp [handleAnswer, hp, hr, jsOrTarget, getOtherParticipant_single s room hps]
  · intro st s pl x y part room hp hr hps hxy hs
    simp [handleIceCandidate, hp, hr, jsOrTarget,
      getOtherParticipant_pair s x y room hps hxy hs]
  · intro st s pl part room hp hr hps
    simp [handleIceCandidate, hp, hr, jsOrTarget, getOtherParticipant_single s room hps]

/-- A two-party video room with members s1 and s2. -/
def pairRTCState : RTCState :=
  { rooms := [("R", { participants := ["s1", "s2"], offers := [], answers := [],
                      iceCandidate := [], createdBy := "A", createdAt := 0,
                      maxParticipants := 2 })],
    participants := [("s1", { anonId := "A", roomId := "R" }),
                     ("s2", { anonId := "B", roomId := "R" })] }

/-- Claim C5 (witness): in the concrete two-party room, an offer from s2
with no explicit target is targeted at s1. -/
theorem relay_target_witness :
    (handleOffer pairRTCState "s2" "offer-sdp" none).1 =
      SignalResult.ok "R" "offer-sdp" "B" "s2" (some "s1") := by
  have h := relay_target_amended.1 pairRTCState "s2" "offer-sdp" "s1" "s2"
    { anonId := "B", roomId := "R" }
    { participants := ["s1", "s2"], offers := [], answers := [], iceCandidate := [],
      createdBy := "A", createdAt := 0, maxParticipants := 2 }
    rfl rfl rfl (by decide) (Or.inr rfl)
  simpa using h

/-!
Claim C6: idempotence of leave.
-/

/-- Claim C6 (counterexample): the second leaveMeeting call for the same
socket returns a Participant-not-found error result rather than succeeding
silently, because the first call removed the socket from the participants
Map; the claim that a repeated leave returns without error fails for
meetings (and likewise for video rooms). -/
theorem leaveMeeting_second_call_cx :
    (leaveMeeting
      (leaveMeeting
        { meetings := [("M",
            { id := "M", title := "T", createdBy := "H", createdAt := 0, scheduledFor := 1,
              duration := 3600000, passcode := "PC", maxParticipants := 10, isActive := true,
              participants := ["s1"],
              settings := { allowScreenShare := true, allowChat := true, allowRecording := false,
                            requirePasscode := true, autoDelete := true },
              metadata := { participantCount := 1, startedAt := some 1, endedAt := none,
                            totalDuration := 0 } })],
          participants := [("s1", { anonId := "H", meetingId := "M", joinedAt := 1,
                                    role := "host" })] }
        "s1" 10).2
      "s1" 20).1 = LeaveMeetingResult.err "Participant not found" := by
  rfl

theorem leaveMeeting_removes (st : MeetingState) (s : String) (n : Nat) :
    listGet (leaveMeeting st s n).2.participants s = none := by
  cases hlk : listGet st.participants s with
  | none => simp only [leaveMeeting, hlk]
  | some part =>
    cases hm : listGet st.meetings part.meetingId with
    | some m => simp only [leaveMeeting, hlk, hm]; exact listGet_listDelete _ _
    | none => simp only [leaveMeeting, hlk, hm]; exact listGet_listDelete _ _

theorem leaveRoom_removes (st : RTCState) (s : String) :
    listGet (leaveRoom st s).2.participants s = none := by
  cases hlk : listGet st.participants s with
  | none => simp only [leaveRoom, hlk]
  | some part =>
    cases hm : listGet st.rooms part.roomId with
    | some room => simp only [leaveRoom, hlk, hm]; exact listGet_listDelete _ _
    | none => simp only [leaveRoom, hlk, hm]; exact listGet_listDelete _ _

/-- Claim C6 (amended): a repeated leave never performs a further state
change; for burner text rooms the second call is also error-free (leave
returns nothing), but for meetings and video rooms the second call returns
a Participant-not-found error result while leaving the state untouched.
The chat conjunct assumes duplicate-free participant lists, which holds for
every reachable state because the source stores participants in a Set. -/
theorem leave_idempotent_amended :
    (∀ (st : ChatState) (rid a : String), chatWF st →
      leaveBurnerRoom (leaveBurnerRoom st rid a) rid a = leaveBurnerRoom st rid a) ∧
    (∀ (st : MeetingState) (s : String) (n1 n2 : Nat),
      leaveMeeting (leaveMeeting st s n1).2 s n2 =
        (LeaveMeetingResult.err "Participant not found", (leaveMeeting st s n1).2)) ∧
    (∀ (st : RTCState) (s : String),
      leaveRoom (leaveRoom st s).2 s =
        (RTCLeaveResult.err "Participant not found", (leaveRoom st s).2)) := by
  refine ⟨?_, ?_, ?_⟩
  · intro st rid a hwf
    cases hlk : listGet st.rooms rid with
    | none =>
      have h1 : leaveBurnerRoom st rid a = st := by simp [leaveBurnerRoom, hlk]
      rw [h1]
      exact h1
    | some entry =>
      cases entry with
      | msgs ids =>
        have h1 : leaveBurnerRoom st rid a = st := by simp [leaveBurnerRoom, hlk]
        rw [h1]
        exact h1
      | burner room =>
        have hnd : room.participants.Nodup := by
          simpa [entryNodup] using hwf (rid, RoomEntry.burner room) (listGet_mem hlk)
        by_cases hz : (room.participants.erase a).length = 0
        · have h1 : leaveBurnerRoom st rid a = { st with rooms := listDelete st.rooms rid } := by
            simp [leaveBurnerRoom, hlk, hz]
          rw [h1]
          simp [leaveBurnerRoom, listGet_listDelete]
        · have h1 : leaveBurnerRoom st rid a =
              ⟨st.messages, listSet st.rooms rid
                (RoomEntry.burner { room with participants := room.participants.erase a })⟩ := by
            simp [leaveBurnerRoom, hlk, hz]
          rw [h1]
          have h2 := listGet_listSet_eq st.rooms rid
            (RoomEntry.burner { room with participants := room.participants.erase a })
          have hna : a ∉ room.participants.erase a := by
            intro hmem2
            exact absurd rfl ((List.Nodup.mem_erase_iff hnd).1 hmem2).1
          have herase : (room.participants.erase a).erase a = room.participants.erase a :=
            List.erase_of_not_mem hna
          simp only [leaveBurnerRoom, h2]
          rw [herase, if_neg hz]
          exact congrArg (fun x => (⟨st.messages, x⟩ : ChatState)) (listGet_listSet_self h2)
  · intro st s n1 n2
    have hnone := leaveMeeting_removes st s n1
    generalize hg : (leaveMeeting st s n1).2 = st1 at hnone ⊢
    simp only [leaveMeeting, hnone]
  · intro st s
    have hnone := leaveRoom_removes st s
    generalize hg : (leaveRoom st s).2 = st1 at hnone ⊢
    simp only [leaveRoom, hnone]

/-- Claim C6 (witness): repeating a leave of burner room R for member B is
a no-op on the concrete two-member room. -/
theorem leave_idempotent_witness :
    leaveBurnerRoom (leaveBurnerRoom
        { messages := [],
          rooms := [("R", RoomEntry.burner
            { id := "R", passcode := "PC", creator := "H", created := 0, expires := 100,
              participants := ["H", "B"], maxParticipants := 10 })] } "R" "B") "R" "B" =
      leaveBurnerRoom
        { messages := [],
          rooms := [("R", RoomEntry.burner
            { id := "R", passcode := "PC", creator := "H", created := 0, expires := 100,
              participants := ["H", "B"], maxParticipants := 10 })] } "R" "B" :=
  leave_idempotent_amended.1
    { messages := [],
      rooms := [("R", RoomEntry.burner
        { id := "R", passcode := "PC", creator := "H", created := 0, expires := 100,
          participants := ["H", "B"], maxParticipants := 10 })] } "R" "B"
    (by unfold chatWF; decide)

/-!
Claim C7: the adaptive rate limiter.
-/

/-- Claim C7 (counterexample): at multiplier 1 the claim demands that every
class keep its own configured points (api 100, messages 30, anonId 5,
roomCreation 3, webrtc 200, auth 10); instead one adjustLimits pass sets
every class to floor(basePoints times the multiplier) = 100, collapsing
the per-class policy ratios. -/
theorem adjustLimits_points_cx :
    (adjustPoints 1 rateLimiters).map LimiterPolicy.points =
      [100, 100, 100, 100, 100, 100] ∧
    rateLimiters.map LimiterPolicy.points = [100, 30, 5, 3, 200, 10] ∧
    (adjustPoints 1 rateLimiters).map LimiterPolicy.points ≠
      rateLimiters.map LimiterPolicy.points := by
  refine ⟨?_, by rfl, ?_⟩
  · norm_num [adjustPoints, rateLimiters, basePoints]
  · intro h
    rw [show rateLimiters.map LimiterPolicy.points = [100, 30, 5, 3, 200, 10] from rfl] at h
    have h1 : (adjustPoints 1 rateLimiters).map LimiterPolicy.points =
        [100, 100, 100, 100, 100, 100] := by
      norm_num [adjustPoints, rateLimiters, basePoints]
    rw [h1] at h
    simp at h

/-- Claim C7 (amended): the load multiplier stays within [0.5, 2.0] and
moves by at most 0.1 per sample; but each pass of the points rewrite sets
every operation class to floor(basePoints times the multiplier), with
basePoints fixed at 100, instead of scaling each class by its own
configured points, so the per-class ratios are not preserved. -/
theorem adaptive_limits_amended :
    (∀ m p : ℚ, 1/2 ≤ m → m ≤ 2 →
      1/2 ≤ adjustMultiplier m p ∧ adjustMultiplier m p ≤ 2) ∧
    (∀ m p : ℚ, 1/2 ≤ m → m ≤ 2 → |adjustMultiplier m p - m| ≤ 1/10) ∧
    (∀ m : ℚ, ∀ pol ∈ adjustPoints m rateLimiters, pol.points = ⌊basePoints * m⌋) := by
  refine ⟨?_, ?_, ?_⟩
  · intro m p h1 h2
    unfold adjustMultiplier
    split
    · constructor
      · exact le_max_left _ _
      · apply max_le
        · norm_num
        · linarith
    · split
      · constructor
        · apply le_min
          · norm_num
          · linarith
        · exact min_le_left _ _
      · exact ⟨h1, h2⟩
  · intro m p h1 h2
    unfold adjustMultiplier
    split
    · have hle : max (1/2 : ℚ) (m - 1/10) ≤ m := max_le (by linarith) (by linarith)
      have hge : m - 1/10 ≤ max (1/2 : ℚ) (m - 1/10) := le_max_right _ _
      rw [abs_le]
      constructor <;> linarith
    · split
      · have hle : min (2 : ℚ) (m + 1/10) ≤ m + 1/10 := min_le_right _ _
        have hge : m ≤ min (2 : ℚ) (m + 1/10) := le_min (by linarith) (by linarith)
        rw [abs_le]
        constructor <;> linarith
      · simp
  · intro m pol hmem
    simp only [adjustPoints, rateLimiters, List.map_cons, List.map_nil, List.mem_cons,
      List.not_mem_nil, or_false] at hmem
    rcases hmem with h | h | h | h | h | h <;>
      · rw [h]
        norm_num

/-- Claim C7 (witness): one high-load sample from multiplier 1 lands on
0.9, inside the bounds and within 0.1 of the previous value. -/
theorem adaptive_limits_witness :
    (1/2 ≤ adjustMultiplier 1 (9/10) ∧ adjustMultiplier 1 (9/10) ≤ 2) ∧
    |adjustMultiplier 1 (9/10) - 1| ≤ 1/10 :=
  ⟨adaptive_limits_amended.1 1 (9/10) (by norm_num) (by norm_num),
   adaptive_limits_amended.2.1 1 (9/10) (by norm_num) (by norm_num)⟩

/-!
Claim C8: token refresh near expiry.
-/

/-- Claim C8 (confirmed): for a valid credential, the refresh route issues
a token with a fresh one-hour lifetime (iat the current second, exp 3600
seconds later) exactly when less than ten minutes remain, and otherwise
issues nothing and reports the remaining lifetime unchanged. -/
theorem refresh_token_behavior :
    ∀ (t : TokenPayload) (nowMs : Nat),
      nowMs / 1000 < t.exp →
      (((t.exp : Int) * 1000 - (nowMs : Int) < 10 * 60 * 1000 →
        refreshToken t nowMs =
          RefreshResult.refreshed t.anonId
            { anonId := t.anonId, iat := nowMs / 1000, exp := nowMs / 1000 + 3600 }) ∧
       (10 * 60 * 1000 ≤ (t.exp : Int) * 1000 - (nowMs : Int) →
        refreshToken t nowMs =
          RefreshResult.noRefresh ((t.exp : Int) * 1000 - (nowMs : Int)))) := by
  intro t nowMs hvalid
  have hver : verifyTempToken t nowMs = some t := by
    simp [verifyTempToken, hvalid]
  constructor
  · intro hnear
    simp [refreshToken, hver, hnear, generateTempToken]
    omega
  · intro hfar
    have hnot : ¬ ((t.exp : Int) * 1000 - (nowMs : Int) < 10 * 60 * 1000) := by omega
    simp [refreshToken, hver, hnot]
    omega

/-- Claim C8 (witness): a token expiring at second 100 refreshed at
millisecond 50000 (50 seconds left) yields a fresh token valid until
second 3650; refreshed with 50000 seconds of margin it is left unchanged
and the remaining 49950000 milliseconds are reported. -/
theorem refresh_token_witness :
    refreshToken { anonId := "A", iat := 0, exp := 100 } 50000 =
      RefreshResult.refreshed "A" { anonId := "A", iat := 50, exp := 3650 } ∧
    refreshToken { anonId := "A", iat := 0, exp := 50000 } 50000 =
      RefreshResult.noRefresh 49950000 :=
  ⟨(refresh_token_behavior { anonId := "A", iat := 0, exp := 100 } 50000 (by norm_num)).1
      (by norm_num),
   (refresh_token_behavior { anonId := "A", iat := 0, exp := 50000 } 50000 (by norm_num)).2
      (by norm_num)⟩

/-!
Claim C9: rejoining a room one is already in.
-/

/-- Claim C9 (confirmed): joining a burner room again with the correct
passcode, while the room is below capacity and the identity is already a
member, succeeds with the unchanged participant count and leaves the whole
chat state untouched (Set.add of a present element is a no-op). -/
theorem rejoin_noop :
    ∀ (st : ChatState) (rid pc a : String) (now : Nat) (r : BurnerRoom),
      listGet st.rooms rid = some (RoomEntry.burner r) →
      now < r.expires →
      r.passcode = pc →
      r.participants.length < r.maxParticipants →
      a ∈ r.participants →
      joinBurnerRoom st rid pc a now = (JoinChatResult.ok rid r.participants.length, st) := by
  intro st rid pc a now r hlk hexp hpc hcap hmem
  subst hpc
  have hne : ¬ r.expires ≤ now := by omega
  have hfull : ¬ r.participants.length ≥ r.maxParticipants := by omega
  have hadd : addElem r.participants a = r.participants := addElem_of_mem hmem
  simp only [joinBurnerRoom, hlk, if_neg hne, bne_self_eq_false, Bool.false_eq_true, if_false,
    if_neg hfull, hadd]
  have heta : (RoomEntry.burner { r with participants := r.participants }) =
      RoomEntry.burner r := rfl
  rw [heta, listGet_listSet_self hlk]

/-- The two-member burner room of the rejoin witness. -/
def rejoinState : ChatState :=
  { messages := [],
    rooms := [("R", RoomEntry.burner
      { id := "R", passcode := "P", creator := "H", created := 0, expires := 100,
        participants := ["H", "B"], maxParticipants := 10 })] }

/-- Claim C9 (witness): member B rejoins room R with the correct passcode
at instant 5: success with participantCount 2 and an unchanged state. -/
theorem rejoin_noop_witness :
    joinBurnerRoom rejoinState "R" "P" "B" 5 = (JoinChatResult.ok "R" 2, rejoinState) :=
  rejoin_noop rejoinState "R" "P" "B" 5
    { id := "R", passcode := "P", creator := "H", created := 0, expires := 100,
      participants := ["H", "B"], maxParticipants := 10 }
    rfl (by decide) rfl (by decide) (by decide)

/-!
Claim C10: meeting chat gate.
-/

/-- Claim C10 (confirmed): handleMeetingMessage errors without any state
change when the sender is not a registered participant, when the meeting
is gone, or when its settings disallow chat; otherwise it returns a chat
message carrying the sender anonId and text for the sender meeting,
still without any state change. -/
theorem meeting_message_behavior :
    ∀ (st : MeetingState) (sid text : String) (now : Nat),
      (listGet st.participants sid = none →
        handleMeetingMessage st sid text now =
          (MeetingMessageResult.err "Participant not found", st)) ∧
      (∀ part, listGet st.participants sid = some part →
        (listGet st.meetings part.meetingId = none →
          handleMeetingMessage st sid text now =
            (MeetingMessageResult.err "Chat not allowed in this meeting", st)) ∧
        (∀ m, listGet st.meetings part.meetingId = some m →
          (m.settings.allowChat = false →
            handleMeetingMessage st sid text now =
              (MeetingMessageResult.err "Chat not allowed in this meeting", st)) ∧
          (m.settings.allowChat = true →
            handleMeetingMessage st sid text now =
              (MeetingMessageResult.ok part.meetingId
                { id := now, anonId := part.anonId, text := text, timestamp := now,
                  type := "chat" }
                m.participants, st)))) := by
  intro st sid text now
  constructor
  · intro hnone
    simp [handleMeetingMessage, hnone]
  · intro part hpart
    constructor
    · intro hm
      simp [handleMeetingMessage, hpart, hm]
    · intro m hm
      constructor
      · intro hchat
        simp [handleMeetingMessage, hpart, hm, hchat]
      · intro hchat
        simp [handleMeetingMessage, hpart, hm, hchat]

/-- Claim C10 (witness): on the empty meeting state an unregistered sender
gets the Participant-not-found error and the state is unchanged. -/
theorem meeting_message_witness :
    handleMeetingMessage { meetings := [], participants := [] } "s" "hi" 5 =
      (MeetingMessageResult.err "Participant not found",
       { meetings := [], participants := [] }) :=
  (meeting_message_behavior { meetings := [], participants := [] } "s" "hi" 5).1 rfl
